import Mathlib

/-!
Verification of the Task Service backend (`src/server.py`): a CRUD
task-management service over a document store.  The store is embedded as a
`List Task` (documents in insertion order); each HTTP handler becomes a pure
function over that state, with the current wall-clock time and generated ids
passed explicitly, and `HTTPException` outcomes modelled with `Except`.
-/

namespace TaskService

/-- `class TaskStatus(str, Enum)`: "To Do" / "In Progress" / "Done". -/
inductive TaskStatus where
  | todo
  | inProgress
  | done
deriving DecidableEq, Repr

/-- `class TaskPriority(str, Enum)`: "High" / "Medium" / "Low". -/
inductive TaskPriority where
  | high
  | medium
  | low
deriving DecidableEq, Repr

/-- `class Subtask(BaseModel)`. -/
structure Subtask where
  id : String
  text : String
  completed : Bool := false
deriving DecidableEq, Repr

/-- `class Task(BaseModel)`.  Timestamps are embedded as `Nat`;
`Optional[...]` fields become `Option`. -/
structure Task where
  id : String
  title : String
  description : Option String := some ""
  due_date : Option Nat := none
  priority : TaskPriority := .medium
  category : Option String := some ""
  status : TaskStatus := .todo
  subtasks : List Subtask := []
  created_at : Nat
  updated_at : Nat
deriving DecidableEq, Repr

/-- `class TaskCreate(BaseModel)`: the input payload of `POST /tasks`. -/
structure TaskCreate where
  title : String
  description : Option String := some ""
  due_date : Option Nat := none
  priority : TaskPriority := .medium
  category : Option String := some ""
  status : TaskStatus := .todo
  subtasks : List Subtask := []
deriving DecidableEq, Repr

/-- `class TaskUpdate(BaseModel)` as pydantic parses it: every field is
`Optional` with default `None`, so after parsing, `none` stands for a field
that was absent from the request body or supplied as JSON `null`. -/
structure TaskUpdate where
  title : Option String := none
  description : Option String := none
  due_date : Option Nat := none
  priority : Option TaskPriority := none
  category : Option String := none
  status : Option TaskStatus := none
  subtasks : Option (List Subtask) := none
deriving DecidableEq, Repr

/-- The JSON-level view of a `TaskUpdate` body before pydantic parsing: each
field is absent (`none`), present as `null` (`some none`), or present with a
value (`some (some v)`). -/
structure TaskUpdateJson where
  title : Option (Option String) := none
  description : Option (Option String) := none
  due_date : Option (Option Nat) := none
  priority : Option (Option TaskPriority) := none
  category : Option (Option String) := none
  status : Option (Option TaskStatus) := none
  subtasks : Option (Option (List Subtask)) := none
deriving DecidableEq, Repr

/-- Pydantic parsing of a `TaskUpdate` body: an absent field takes its
default `None`, and a field supplied as JSON `null` also parses to `None`
(every field is `Optional`), so both collapse to `none`. -/
def TaskUpdateJson.parse (j : TaskUpdateJson) : TaskUpdate :=
  { title := j.title.join
    description := j.description.join
    due_date := j.due_date.join
    priority := j.priority.join
    category := j.category.join
    status := j.status.join
    subtasks := j.subtasks.join }

/-- `raise HTTPException(status_code=..., detail=...)`. -/
structure HTTPException where
  status_code : Nat
  detail : String
deriving DecidableEq, Repr

/-- A handler result: either a value or an `HTTPException`. -/
abbrev Result (α : Type) := Except HTTPException α

instance {ε α : Type} [DecidableEq ε] [DecidableEq α] : DecidableEq (Except ε α) := fun a b =>
  match a, b with
  | .ok x, .ok y =>
    if h : x = y then .isTrue (h ▸ rfl) else .isFalse fun hc => h (Except.ok.inj hc)
  | .error x, .error y =>
    if h : x = y then .isTrue (h ▸ rfl) else .isFalse fun hc => h (Except.error.inj hc)
  | .ok _, .error _ => .isFalse fun hc => Except.noConfusion hc
  | .error _, .ok _ => .isFalse fun hc => Except.noConfusion hc

/-- `db.tasks`: the task collection in document insertion order. -/
abbrev DB := List Task

/-- `db.tasks.find_one({"id": task_id})`: the first document whose `id`
field equals `task_id`, if any. -/
def findOneById (db : DB) (task_id : String) : Option Task :=
  db.find? (fun t => t.id == task_id)

/-- `db.tasks.update_one(filter, {"$set": ...})`: applies `f` to the first
document satisfying `p` and returns the new collection together with the
reported `modified_count`, which is `1` only when the rewritten document
actually differs from the stored one (MongoDB reports `modified_count = 0`
for a matched document that the `$set` left byte-identical). -/
def updateFirst (db : DB) (p : Task → Bool) (f : Task → Task) : DB × Nat :=
  match db with
  | [] => ([], 0)
  | t :: rest =>
    if p t then
      ((f t) :: rest, if f t = t then 0 else 1)
    else
      let r := updateFirst rest p f
      (t :: r.1, r.2)

/-- `db.tasks.delete_one({"id": ...})`: removes the first document
satisfying `p` and reports the `deleted_count` (0 or 1). -/
def deleteFirst (db : DB) (p : Task → Bool) : DB × Nat :=
  match db with
  | [] => ([], 0)
  | t :: rest =>
    if p t then (rest, 1)
    else
      let r := deleteFirst rest p
      (t :: r.1, r.2)

/-- `db.tasks.count_documents(filter)` for a filter embedded as a
predicate. -/
def countDocuments (db : DB) (p : Task → Bool) : Nat :=
  (db.filter p).length

/-- `POST /tasks` (`create_task`): builds the `Task` from the input with
server-generated `id` and timestamps, inserts it, and returns it when the
write is acknowledged (`result.inserted_id` set); otherwise raises 500. -/
def create_task (db : DB) (genId : String) (now : Nat) (task_input : TaskCreate)
    (acknowledged : Bool) : Result (DB × Task) :=
  let task_obj : Task :=
    { id := genId
      title := task_input.title
      description := task_input.description
      due_date := task_input.due_date
      priority := task_input.priority
      category := task_input.category
      status := task_input.status
      subtasks := task_input.subtasks
      created_at := now
      updated_at := now }
  if acknowledged then
    .ok (db ++ [task_obj], task_obj)
  else
    .error ⟨500, "Failed to create task"⟩

/-- The filter document built by `get_tasks`: a query parameter is added to
`filter_dict` only when it is Python-truthy, so a present `status` or
`priority` (whose enum values are non-empty strings) always filters, while
`category` filters only when it is a non-empty string. -/
def taskFilterPred (status : Option TaskStatus) (priority : Option TaskPriority)
    (category : Option String) (t : Task) : Bool :=
  (match status with
   | some s => t.status == s
   | none => true) &&
  (match priority with
   | some p => t.priority == p
   | none => true) &&
  (match category with
   | some c => if c == "" then true else t.category == some c
   | none => true)

/-- Descending comparison on `created_at`, for `.sort("created_at", -1)`. -/
def createdDesc (a b : Task) : Bool := b.created_at ≤ a.created_at

/-- `GET /tasks` (`get_tasks`): filter, sort by `created_at` descending,
and truncate to the first 1000 documents (`to_list(1000)`). -/
def get_tasks (db : DB) (status : Option TaskStatus) (priority : Option TaskPriority)
    (category : Option String) : List Task :=
  (((db.filter (taskFilterPred status priority category)).mergeSort createdDesc).take 1000)

/-- `GET /tasks/{task_id}` (`get_task`): exact lookup, 404 when absent. -/
def get_task (db : DB) (task_id : String) : Result Task :=
  match findOneById db task_id with
  | none => .error ⟨404, "Task not found"⟩
  | some t => .ok t

/-- The `$set` document of `update_task`: the supplied (non-`None`) fields
of the parsed `TaskUpdate` plus `updated_at = now`, applied to a stored
document. -/
def applyUpdate (tu : TaskUpdate) (now : Nat) (t : Task) : Task :=
  { t with
    title := tu.title.getD t.title
    description := match tu.description with
      | some s => some s
      | none => t.description
    due_date := match tu.due_date with
      | some d => some d
      | none => t.due_date
    priority := tu.priority.getD t.priority
    category := match tu.category with
      | some c => some c
      | none => t.category
    status := tu.status.getD t.status
    subtasks := tu.subtasks.getD t.subtasks
    updated_at := now }

/-- `PUT /tasks/{task_id}` (`update_task`): 404 when no document has the
id; otherwise `$set` the supplied fields plus `updated_at`, then require
`modified_count == 1`, re-read the document and return it, raising 500
otherwise.  (The re-read cannot miss after a successful targeted update;
were it to return no document, `Task(**None)` would crash the handler,
surfaced as a generic 500.) -/
def update_task (db : DB) (now : Nat) (task_id : String) (task_update : TaskUpdate) :
    Result (DB × Task) :=
  match findOneById db task_id with
  | none => .error ⟨404, "Task not found"⟩
  | some _ =>
    let r := updateFirst db (fun t => t.id == task_id) (applyUpdate task_update now)
    if r.2 = 1 then
      match findOneById r.1 task_id with
      | some updated_task => .ok (r.1, updated_task)
      | none => .error ⟨500, "Internal Server Error"⟩
    else
      .error ⟨500, "Failed to update task"⟩

/-- `DELETE /tasks/{task_id}` (`delete_task`): 404 unless exactly one
document was removed; otherwise an acknowledgement message. -/
def delete_task (db : DB) (task_id : String) : Result (DB × String) :=
  let r := deleteFirst db (fun t => t.id == task_id)
  if r.2 = 1 then
    .ok (r.1, "Task deleted successfully")
  else
    .error ⟨404, "Task not found"⟩

/-- The MongoDB filter `{"due_date": {"$lt": now}, "status": {"$ne": "Done"}}`:
`$lt` on a date matches only documents whose `due_date` is a date strictly
below `now` (a `null` `due_date` is type-bracketed out), conjoined with
`status` different from Done. -/
def overduePred (now : Nat) (t : Task) : Bool :=
  (match t.due_date with
   | some d => d < now
   | none => false) &&
  !(t.status == .done)

/-- The flat six-count structure returned by `GET /tasks/stats/dashboard`. -/
structure DashboardStats where
  total_tasks : Nat
  todo_count : Nat
  in_progress_count : Nat
  done_count : Nat
  high_priority_count : Nat
  overdue_count : Nat
deriving DecidableEq, Repr

/-- `GET /tasks/stats/dashboard` (`get_dashboard_stats`): six independent
counting queries over the collection. -/
def get_dashboard_stats (db : DB) (now : Nat) : DashboardStats :=
  { total_tasks := countDocuments db (fun _ => true)
    todo_count := countDocuments db (fun t => t.status == .todo)
    in_progress_count := countDocuments db (fun t => t.status == .inProgress)
    done_count := countDocuments db (fun t => t.status == .done)
    high_priority_count := countDocuments db (fun t => t.priority == .high)
    overdue_count := countDocuments db (overduePred now) }

/-- The positional `$` update `{"subtasks.$.completed": completed}`: sets
`completed` on the first array element matching the query's `subtasks.id`
clause. -/
def setSubtaskCompleted (subs : List Subtask) (subtask_id : String) (completed : Bool) :
    List Subtask :=
  match subs with
  | [] => []
  | s :: rest =>
    if s.id == subtask_id then { s with completed := completed } :: rest
    else s :: setSubtaskCompleted rest subtask_id completed

/-- `PUT /tasks/{task_id}/subtasks/{subtask_id}` (`update_subtask`): 404
when the task is absent; otherwise a targeted update whose filter also
requires some subtask with `subtask_id`, setting that subtask's `completed`
and refreshing `updated_at`; unless `modified_count == 1`, 404 "Subtask not
found". -/
def update_subtask (db : DB) (now : Nat) (task_id : String) (subtask_id : String)
    (completed : Bool) : Result (DB × Task) :=
  match findOneById db task_id with
  | none => .error ⟨404, "Task not found"⟩
  | some _ =>
    let r := updateFirst db
      (fun t => t.id == task_id && t.subtasks.any (fun s => s.id == subtask_id))
      (fun t => { t with
                  subtasks := setSubtaskCompleted t.subtasks subtask_id completed
                  updated_at := now })
    if r.2 = 1 then
      match findOneById r.1 task_id with
      | some updated_task => .ok (r.1, updated_task)
      | none => .error ⟨500, "Internal Server Error"⟩
    else
      .error ⟨404, "Subtask not found"⟩

/-- Task ids are pairwise distinct in the collection (the §3 uniqueness
invariant). -/
def idsNodup (db : DB) : Prop := (db.map Task.id).Nodup

instance : DecidablePred idsNodup := fun db =>
  inferInstanceAs (Decidable (db.map Task.id).Nodup)

/-- The §3 timestamp invariant: every stored task satisfies
`created_at ≤ updated_at`. -/
def Inv (db : DB) : Prop := ∀ t ∈ db, t.created_at ≤ t.updated_at

/-- The wall clock never lags a stored creation time. -/
def ClockBound (db : DB) (now : Nat) : Prop := ∀ t ∈ db, t.created_at ≤ now

/-! ### Lemmas about the document-store primitives -/

theorem updateFirst_of_find?_eq_none {db : DB} {p : Task → Bool} {f : Task → Task}
    (h : db.find? p = none) : updateFirst db p f = (db, 0) := by
  induction db with
  | nil => rfl
  | cons t rest ih =>
    rw [List.find?_cons] at h
    cases hp : p t with
    | true => simp [hp] at h
    | false =>
      rw [hp] at h
      simp [updateFirst, hp, ih h]

theorem updateFirst_of_find?_some {db : DB} {p : Task → Bool} {f : Task → Task} {t0 : Task}
    (h : db.find? p = some t0) :
    ∃ l1 l2, db = l1 ++ t0 :: l2 ∧ (∀ x ∈ l1, p x = false) ∧
      updateFirst db p f = (l1 ++ f t0 :: l2, if f t0 = t0 then 0 else 1) := by
  induction db with
  | nil => simp at h
  | cons t rest ih =>
    rw [List.find?_cons] at h
    cases hp : p t with
    | true =>
      rw [hp] at h
      simp only [Option.some.injEq] at h
      subst h
      exact ⟨[], rest, rfl, by simp, by simp [updateFirst, hp]⟩
    | false =>
      rw [hp] at h
      obtain ⟨l1, l2, hdb, hl1, hupd⟩ := ih h
      refine ⟨t :: l1, l2, by simp [hdb], ?_, ?_⟩
      · intro x hx
        rcases List.mem_cons.mp hx with hx | hx
        · subst hx; exact hp
        · exact hl1 x hx
      · simp [updateFirst, hp, hupd]

theorem updateFirst_snd_eq_one {db : DB} {p : Task → Bool} {f : Task → Task} :
    (updateFirst db p f).2 = 1 ↔ ∃ t0, db.find? p = some t0 ∧ f t0 ≠ t0 := by
  constructor
  · intro h
    cases hf : db.find? p with
    | none => rw [updateFirst_of_find?_eq_none hf] at h; simp at h
    | some t0 =>
      refine ⟨t0, rfl, ?_⟩
      obtain ⟨l1, l2, _, _, hupd⟩ := updateFirst_of_find?_some (f := f) hf
      rw [hupd] at h
      intro hft
      simp [hft] at h
  · rintro ⟨t0, hf, hne⟩
    obtain ⟨l1, l2, _, _, hupd⟩ := updateFirst_of_find?_some (f := f) hf
    rw [hupd]
    simp [hne]

theorem mem_updateFirst {db : DB} {p : Task → Bool} {f : Task → Task} {x : Task}
    (hx : x ∈ (updateFirst db p f).1) : x ∈ db ∨ ∃ y ∈ db, p y = true ∧ x = f y := by
  induction db with
  | nil => simp [updateFirst] at hx
  | cons t rest ih =>
    by_cases hp : p t
    · simp only [updateFirst, hp, if_pos] at hx
      rcases List.mem_cons.mp hx with hx | hx
      · exact Or.inr ⟨t, List.mem_cons_self .., hp, hx⟩
      · exact Or.inl (List.mem_cons_of_mem _ hx)
    · simp only [updateFirst, hp] at hx
      rw [if_neg (by simp [hp])] at hx
      rcases List.mem_cons.mp hx with hx | hx
      · exact Or.inl (by simp [hx])
      · rcases ih hx with h | ⟨y, hy, hpy, hxy⟩
        · exact Or.inl (List.mem_cons_of_mem _ h)
        · exact Or.inr ⟨y, List.mem_cons_of_mem _ hy, hpy, hxy⟩

theorem map_updateFirst {db : DB} {p : Task → Bool} {f : Task → Task} {β : Type}
    (g : Task → β) (hg : ∀ t, g (f t) = g t) :
    ((updateFirst db p f).1).map g = db.map g := by
  induction db with
  | nil => rfl
  | cons t rest ih =>
    by_cases hp : p t
    · simp [updateFirst, hp, hg]
    · simp only [updateFirst, hp]
      rw [if_neg (by simp [hp])]
      simp [ih]

theorem deleteFirst_of_find?_eq_none {db : DB} {p : Task → Bool}
    (h : db.find? p = none) : deleteFirst db p = (db, 0) := by
  induction db with
  | nil => rfl
  | cons t rest ih =>
    rw [List.find?_cons] at h
    cases hp : p t with
    | true => simp [hp] at h
    | false =>
      rw [hp] at h
      simp [deleteFirst, hp, ih h]

theorem deleteFirst_of_find?_some {db : DB} {p : Task → Bool} {t0 : Task}
    (h : db.find? p = some t0) :
    ∃ l1 l2, db = l1 ++ t0 :: l2 ∧ (∀ x ∈ l1, p x = false) ∧
      deleteFirst db p = (l1 ++ l2, 1) := by
  induction db with
  | nil => simp at h
  | cons t rest ih =>
    rw [List.find?_cons] at h
    cases hp : p t with
    | true =>
      rw [hp] at h
      simp only [Option.some.injEq] at h
      subst h
      exact ⟨[], rest, rfl, by simp, by simp [deleteFirst, hp]⟩
    | false =>
      rw [hp] at h
      obtain ⟨l1, l2, hdb, hl1, hdel⟩ := ih h
      refine ⟨t :: l1, l2, by simp [hdb], ?_, ?_⟩
      · intro x hx
        rcases List.mem_cons.mp hx with hx | hx
        · subst hx; exact hp
        · exact hl1 x hx
      · simp [deleteFirst, hp, hdel]

theorem setSubtaskCompleted_of_find?_some {subs : List Subtask} {sid : String} {s0 : Subtask}
    (b : Bool) (h : subs.find? (fun s => s.id == sid) = some s0) :
    ∃ l1 l2, subs = l1 ++ s0 :: l2 ∧ (∀ x ∈ l1, x.id ≠ sid) ∧ s0.id = sid ∧
      setSubtaskCompleted subs sid b = l1 ++ { s0 with completed := b } :: l2 := by
  induction subs with
  | nil => simp at h
  | cons s rest ih =>
    rw [List.find?_cons] at h
    cases hp : (s.id == sid) with
    | true =>
      rw [hp] at h
      simp only [Option.some.injEq] at h
      subst h
      exact ⟨[], rest, rfl, by simp, by simpa using hp, by simp [setSubtaskCompleted, hp]⟩
    | false =>
      rw [hp] at h
      obtain ⟨l1, l2, hsubs, hl1, hsid, hset⟩ := ih h
      refine ⟨s :: l1, l2, by simp [hsubs], ?_, hsid, ?_⟩
      · intro x hx
        rcases List.mem_cons.mp hx with hx | hx
        · subst hx; simpa using hp
        · exact hl1 x hx
      · simp [setSubtaskCompleted, hp, hset]

theorem find?_middle {l1 l2 : List Task} {q : Task → Bool} {a : Task}
    (h1 : ∀ x ∈ l1, q x = false) (ha : q a = true) :
    (l1 ++ a :: l2).find? q = some a := by
  induction l1 with
  | nil => simp [List.find?_cons, ha]
  | cons x rest ih =>
    have hx : q x = false := h1 x (List.mem_cons_self ..)
    simp only [List.cons_append, List.find?_cons, hx]
    exact ih fun y hy => h1 y (List.mem_cons_of_mem _ hy)

theorem update_task_eq_ok {db : DB} {now : Nat} {tid : String} {tu : TaskUpdate}
    {db' : DB} {t : Task} (h : update_task db now tid tu = .ok (db', t)) :
    ∃ t0 l1 l2, db = l1 ++ t0 :: l2 ∧ (∀ x ∈ l1, x.id ≠ tid) ∧ t0.id = tid ∧
      applyUpdate tu now t0 ≠ t0 ∧
      db' = l1 ++ applyUpdate tu now t0 :: l2 ∧ t = applyUpdate tu now t0 := by
  unfold update_task at h
  cases hf : findOneById db tid with
  | none => rw [hf] at h; simp at h
  | some t1 =>
    rw [hf] at h
    simp only at h
    by_cases hc : (updateFirst db (fun x => x.id == tid) (applyUpdate tu now)).2 = 1
    · obtain ⟨t0, hfind, hne⟩ := updateFirst_snd_eq_one.mp hc
      obtain ⟨l1, l2, hdb, hl1, hupd⟩ :=
        updateFirst_of_find?_some (f := applyUpdate tu now) hfind
      have ht0id : (t0.id == tid) = true := by
        simpa using List.find?_some hfind
      have hq : ((applyUpdate tu now t0).id == tid) = true := ht0id
      have hre : findOneById (updateFirst db (fun x => x.id == tid) (applyUpdate tu now)).1 tid
          = some (applyUpdate tu now t0) := by
        rw [hupd]
        exact find?_middle (fun x hx => by
          have := hl1 x hx
          simpa using this) hq
      rw [if_pos hc, hre] at h
      simp only [Except.ok.injEq, Prod.mk.injEq] at h
      refine ⟨t0, l1, l2, hdb, ?_, by simpa using ht0id, hne, ?_, h.2.symm⟩
      · intro x hx
        have := hl1 x hx
        simpa using this
      · rw [← h.1, hupd]
    · rw [if_neg hc] at h
      simp at h

theorem update_subtask_eq_ok {db : DB} {now : Nat} {tid sid : String} {b : Bool}
    {db' : DB} {t : Task} (hnd : idsNodup db)
    (h : update_subtask db now tid sid b = .ok (db', t)) :
    ∃ t0 l1 l2, db = l1 ++ t0 :: l2 ∧ (∀ x ∈ l1 ++ l2, x.id ≠ tid) ∧ t0.id = tid ∧
      t0.subtasks.any (fun s => s.id == sid) = true ∧
      db' = l1 ++ { t0 with subtasks := setSubtaskCompleted t0.subtasks sid b,
                            updated_at := now } :: l2 ∧
      t = { t0 with subtasks := setSubtaskCompleted t0.subtasks sid b,
                    updated_at := now } := by
  unfold update_subtask at h
  cases hf : findOneById db tid with
  | none => rw [hf] at h; simp at h
  | some t1 =>
    rw [hf] at h
    simp only at h
    set p : Task → Bool := fun x => x.id == tid && x.subtasks.any (fun s => s.id == sid) with hp
    set f : Task → Task := fun x => { x with
      subtasks := setSubtaskCompleted x.subtasks sid b, updated_at := now } with hfdef
    by_cases hc : (updateFirst db p f).2 = 1
    · obtain ⟨t0, hfind, hne⟩ := updateFirst_snd_eq_one.mp hc
      obtain ⟨l1, l2, hdb, hl1, hupd⟩ := updateFirst_of_find?_some (f := f) hfind
      have ht0p : p t0 = true := List.find?_some hfind
      have ht0id : t0.id = tid := by
        have := ht0p
        rw [hp] at this
        simp only [Bool.and_eq_true, beq_iff_eq] at this
        exact this.1
      have ht0any : t0.subtasks.any (fun s => s.id == sid) = true := by
        have := ht0p
        rw [hp] at this
        simp only [Bool.and_eq_true] at this
        exact this.2
      have hnodup : (l1.map Task.id ++ t0.id :: l2.map Task.id).Nodup := by
        have := hnd
        rw [idsNodup, hdb] at this
        simpa using this
      have hrest : ∀ x ∈ l1 ++ l2, x.id ≠ tid := by
        intro x hx hxid
        have hmem : t0.id ∈ l1.map Task.id ++ l2.map Task.id := by
          rcases List.mem_append.mp hx with hx | hx
          · exact List.mem_append.mpr (Or.inl (by
              rw [← ht0id] at hxid
              exact hxid ▸ List.mem_map_of_mem _ hx))
          · exact List.mem_append.mpr (Or.inr (by
              rw [← ht0id] at hxid
              exact hxid ▸ List.mem_map_of_mem _ hx))
        have := (List.nodup_middle.mp hnodup)
        rw [List.nodup_cons] at this
        exact this.1 hmem
      have hre : findOneById (updateFirst db p f).1 tid = some (f t0) := by
        rw [hupd]
        refine find?_middle (fun x hx => ?_) (by simp [hfdef, ht0id])
        have : x.id ≠ tid := hrest x (List.mem_append.mpr (Or.inl hx))
        simpa using this
      rw [if_pos hc, hre] at h
      simp only [Except.ok.injEq, Prod.mk.injEq] at h
      exact ⟨t0, l1, l2, hdb, hrest, ht0id, ht0any, by rw [← h.1, hupd], h.2.symm⟩
    · rw [if_neg hc] at h
      simp at h

/-! ### Claim theorems -/

/-- C1: for every `update(id, partial)` call: when no task has the given id
the handler fails with NotFound (404); when the task exists but the targeted
write does not report exactly one modified record it fails with
PersistenceError (500); otherwise it succeeds, returning the new collection
and the full updated task. -/
theorem update_task_contract (db : DB) (now : Nat) (tid : String) (tu : TaskUpdate) :
    ((∀ t ∈ db, t.id ≠ tid) →
      update_task db now tid tu = .error ⟨404, "Task not found"⟩) ∧
    (∀ t1, findOneById db tid = some t1 →
      (((updateFirst db (fun t => t.id == tid) (applyUpdate tu now)).2 ≠ 1 →
        update_task db now tid tu = .error ⟨500, "Failed to update task"⟩) ∧
      ((updateFirst db (fun t => t.id == tid) (applyUpdate tu now)).2 = 1 →
        update_task db now tid tu =
          .ok ((updateFirst db (fun t => t.id == tid) (applyUpdate tu now)).1,
               applyUpdate tu now t1)))) := by
  refine ⟨?_, ?_⟩
  · intro hno
    have hf : findOneById db tid = none := by
      rw [findOneById, List.find?_eq_none]
      intro x hx
      simpa using hno x hx
    simp [update_task, hf]
  · intro t1 hf
    refine ⟨?_, ?_⟩
    · intro hne
      rw [update_task, hf]
      simp only
      rw [if_neg hne]
    · intro hone
      obtain ⟨t0, hfind, hne0⟩ := updateFirst_snd_eq_one.mp hone
      have ht01 : t0 = t1 := by
        rw [findOneById] at hf
        rw [hf] at hfind
        exact (Option.some_inj.mp hfind).symm
      subst ht01
      obtain ⟨l1, l2, hdb, hl1, hupd⟩ :=
        updateFirst_of_find?_some (f := applyUpdate tu now) hfind
      have ht0id : (t0.id == tid) = true := by
        simpa using List.find?_some hfind
      have hre : findOneById (updateFirst db (fun t => t.id == tid) (applyUpdate tu now)).1 tid
          = some (applyUpdate tu now t0) := by
        rw [hupd]
        exact find?_middle (fun x hx => hl1 x hx) ht0id
      rw [update_task, hf]
      simp only
      rw [if_pos hone, hre]

/-- C1 witness: a missing id yields 404; a real update succeeds and returns
the rewritten task; a no-op update (`now` equal to the stored `updated_at`
and an empty partial) reports zero modified records and yields 500. -/
theorem update_task_contract_witness :
    update_task [] 1 "a" {} = .error ⟨404, "Task not found"⟩ ∧
    update_task [{ id := "a", title := "x", created_at := 0, updated_at := 0 }] 1 "a" {}
      = .ok ((updateFirst [{ id := "a", title := "x", created_at := 0, updated_at := 0 }]
               (fun t => t.id == "a") (applyUpdate {} 1)).1,
             applyUpdate {} 1 { id := "a", title := "x", created_at := 0, updated_at := 0 }) ∧
    update_task [{ id := "a", title := "x", created_at := 0, updated_at := 0 }] 0 "a" {}
      = .error ⟨500, "Failed to update task"⟩ :=
  ⟨(update_task_contract [] 1 "a" {}).1 (by decide),
   ((update_task_contract [{ id := "a", title := "x", created_at := 0, updated_at := 0 }]
      1 "a" {}).2 { id := "a", title := "x", created_at := 0, updated_at := 0 }
      (by decide)).2 (by decide),
   ((update_task_contract [{ id := "a", title := "x", created_at := 0, updated_at := 0 }]
      0 "a" {}).2 { id := "a", title := "x", created_at := 0, updated_at := 0 }
      (by decide)).1 (by decide)⟩

/-- C2: on every successful `update(id, partial)`, the returned task keeps
the stored value of every field absent from the partial, keeps `id` and
`created_at`, and has `updated_at = now`; with an empty partial it is the
stored task with only `updated_at` refreshed. -/
theorem update_task_frame (db : DB) (now : Nat) (tid : String) (tu : TaskUpdate)
    (t0 t : Task) (db' : DB)
    (h0 : findOneById db tid = some t0)
    (hok : update_task db now tid tu = .ok (db', t)) :
    t.id = t0.id ∧ t.created_at = t0.created_at ∧ t.updated_at = now ∧
    (tu.title = none → t.title = t0.title) ∧
    (tu.description = none → t.description = t0.description) ∧
    (tu.due_date = none → t.due_date = t0.due_date) ∧
    (tu.priority = none → t.priority = t0.priority) ∧
    (tu.category = none → t.category = t0.category) ∧
    (tu.status = none → t.status = t0.status) ∧
    (tu.subtasks = none → t.subtasks = t0.subtasks) ∧
    (tu = {} → t = { t0 with updated_at := now }) := by
  obtain ⟨t0', l1, l2, hdb, hl1, hid, hne, hdb', ht⟩ := update_task_eq_ok hok
  have ht00 : t0 = t0' := by
    rw [findOneById, hdb] at h0
    rw [find?_middle (fun x hx => by simpa using hl1 x hx) (by simpa using hid)] at h0
    exact (Option.some_inj.mp h0).symm
  subst ht00
  subst ht
  refine ⟨rfl, rfl, rfl, ?_, ?_, ?_, ?_, ?_, ?_, ?_, ?_⟩
  · intro h; simp [applyUpdate, h]
  · intro h; simp [applyUpdate, h]
  · intro h; simp [applyUpdate, h]
  · intro h; simp [applyUpdate, h]
  · intro h; simp [applyUpdate, h]
  · intro h; simp [applyUpdate, h]
  · intro h; simp [applyUpdate, h]
  · intro h; subst h; rfl

/-- C2 witness: an empty-partial update at time 1 of a task stored with
`updated_at = 0` succeeds and only refreshes `updated_at`. -/
theorem update_task_frame_witness :
    (({ id := "a", title := "x", created_at := 0, updated_at := 0 } : Task).title = "x" ∧
     ({ id := "a", title := "x", created_at := 0, updated_at := 0 } : Task).created_at = 0) ∧
    (applyUpdate {} 1 { id := "a", title := "x", created_at := 0, updated_at := 0 }
      = { id := "a", title := "x", created_at := 0, updated_at := 1 }) :=
  ⟨⟨rfl, rfl⟩, by
    have h := update_task_frame
      [{ id := "a", title := "x", created_at := 0, updated_at := 0 }] 1 "a" {}
      { id := "a", title := "x", created_at := 0, updated_at := 0 }
      (applyUpdate {} 1 { id := "a", title := "x", created_at := 0, updated_at := 0 })
      [applyUpdate {} 1 { id := "a", title := "x", created_at := 0, updated_at := 0 }]
      (by decide) (by decide)
    exact h.2.2.2.2.2.2.2.2.2.2 rfl⟩

/-- C4: `create(input)` with an acknowledged write returns the collection
with the new task appended and the task itself, whose `id`, `created_at`
and `updated_at` are the server-generated values and whose payload fields
come from the input; a title-only input gets every documented default; an
unacknowledged write fails with PersistenceError (500). -/
theorem create_task_contract (db : DB) (genId : String) (now : Nat) (inp : TaskCreate) :
    (∃ t : Task, create_task db genId now inp true = .ok (db ++ [t], t) ∧
      t.id = genId ∧ t.created_at = now ∧ t.updated_at = now ∧
      t.title = inp.title ∧ t.description = inp.description ∧
      t.due_date = inp.due_date ∧ t.priority = inp.priority ∧
      t.category = inp.category ∧ t.status = inp.status ∧
      t.subtasks = inp.subtasks) ∧
    (∀ s : String, ∃ t : Task,
      create_task db genId now { title := s } true = .ok (db ++ [t], t) ∧
      t.description = some "" ∧ t.due_date = none ∧ t.priority = .medium ∧
      t.category = some "" ∧ t.status = .todo ∧ t.subtasks = []) ∧
    (create_task db genId now inp false = .error ⟨500, "Failed to create task"⟩) := by
  refine ⟨⟨_, rfl, rfl, rfl, rfl, rfl, rfl, rfl, rfl, rfl, rfl, rfl⟩,
          fun s => ⟨_, rfl, rfl, rfl, rfl, rfl, rfl, rfl⟩, rfl⟩

/-- C7: `delete(id)` fails with NotFound (404) when no record is removed,
returns the acknowledgement message on success, succeeds whenever a task
with the id exists, and (with unique ids) a subsequent `get(id)` on the
resulting collection fails with NotFound. -/
theorem delete_task_contract (db : DB) (tid : String) :
    ((∀ t ∈ db, t.id ≠ tid) →
      delete_task db tid = .error ⟨404, "Task not found"⟩) ∧
    ((∃ t ∈ db, t.id = tid) →
      ∃ db', delete_task db tid = .ok (db', "Task deleted successfully")) ∧
    (∀ db' msg, delete_task db tid = .ok (db', msg) →
      msg = "Task deleted successfully" ∧
      (idsNodup db → get_task db' tid = .error ⟨404, "Task not found"⟩)) := by
  refine ⟨?_, ?_, ?_⟩
  · intro hno
    have hf : db.find? (fun t => t.id == tid) = none := by
      rw [List.find?_eq_none]
      intro x hx
      simpa using hno x hx
    simp [delete_task, deleteFirst_of_find?_eq_none hf]
  · rintro ⟨t, ht, hid⟩
    have hex : ∃ t0, db.find? (fun t => t.id == tid) = some t0 := by
      cases hf : db.find? (fun t => t.id == tid) with
      | none =>
        rw [List.find?_eq_none] at hf
        exact absurd (by simpa using hid) (by simpa using hf t ht)
      | some t0 => exact ⟨t0, rfl⟩
    obtain ⟨t0, hf⟩ := hex
    obtain ⟨l1, l2, hdb, hl1, hdel⟩ := deleteFirst_of_find?_some hf
    exact ⟨l1 ++ l2, by simp [delete_task, hdel]⟩
  · intro db' msg hok
    rw [delete_task] at hok
    by_cases hc : (deleteFirst db (fun t => t.id == tid)).2 = 1
    · simp only [if_pos hc, Except.ok.injEq, Prod.mk.injEq] at hok
      refine ⟨hok.2.symm, ?_⟩
      intro hnd
      cases hf : db.find? (fun t => t.id == tid) with
      | none =>
        rw [deleteFirst_of_find?_eq_none hf] at hc
        simp at hc
      | some t0 =>
        obtain ⟨l1, l2, hdb, hl1, hdel⟩ := deleteFirst_of_find?_some hf
        have hdb'1 : db' = l1 ++ l2 := by rw [← hok.1, hdel]
        have ht0id : t0.id = tid := by simpa using List.find?_some hf
        have hnodup : (l1.map Task.id ++ t0.id :: l2.map Task.id).Nodup := by
          have := hnd
          rw [idsNodup, hdb] at this
          simpa using this
        have hrest : ∀ x ∈ l1 ++ l2, x.id ≠ tid := by
          intro x hx hxid
          have hmem : t0.id ∈ l1.map Task.id ++ l2.map Task.id := by
            rw [ht0id, ← hxid] at *
            rcases List.mem_append.mp hx with hx | hx
            · exact List.mem_append.mpr (Or.inl (List.mem_map_of_mem _ hx))
            · exact List.mem_append.mpr (Or.inr (List.mem_map_of_mem _ hx))
          have hmid := List.nodup_middle.mp hnodup
          rw [List.nodup_cons] at hmid
          exact hmid.1 (by rw [ht0id, ← hxid] at hmem ⊢; exact hmem)
        have hnone : findOneById db' tid = none := by
          rw [findOneById, List.find?_eq_none, hdb'1]
          intro x hx
          simpa using hrest x hx
        rw [get_task, hnone]
    · rw [if_neg hc] at hok
      simp at hok

/-- C7 witness: deleting a missing id yields 404; deleting the only stored
task succeeds with the acknowledgement message, after which `get` on the
same id yields 404. -/
theorem delete_task_contract_witness :
    delete_task [] "a" = .error ⟨404, "Task not found"⟩ ∧
    (∃ db', delete_task [{ id := "a", title := "x", created_at := 0, updated_at := 0 }] "a"
      = .ok (db', "Task deleted successfully")) ∧
    get_task [] "a" = .error ⟨404, "Task not found"⟩ :=
  ⟨(delete_task_contract [] "a").1 (by decide),
   (delete_task_contract [{ id := "a", title := "x", created_at := 0, updated_at := 0 }]
      "a").2.1 ⟨_, List.mem_singleton.mpr rfl, rfl⟩,
   ((delete_task_contract [{ id := "a", title := "x", created_at := 0, updated_at := 0 }]
      "a").2.2 [] "Task deleted successfully" (by decide)).2 (by decide)⟩

/-- The spec's reading of the `list` filters ("each filter, if present, is
an exact-match conjunction against the stored field; no filter means match
all"), amended only for the empty-string category: a task matches when it
agrees with every supplied status/priority filter and with every supplied
non-empty category filter. -/
def specMatches (s : Option TaskStatus) (p : Option TaskPriority) (c : Option String)
    (t : Task) : Prop :=
  (∀ sv, s = some sv → t.status = sv) ∧
  (∀ pv, p = some pv → t.priority = pv) ∧
  (∀ cv, c = some cv → cv ≠ "" → t.category = some cv)

theorem taskFilterPred_iff_specMatches (s : Option TaskStatus) (p : Option TaskPriority)
    (c : Option String) (t : Task) :
    taskFilterPred s p c t = true ↔ specMatches s p c t := by
  simp only [taskFilterPred, specMatches, Bool.and_eq_true]
  constructor
  · rintro ⟨⟨h1, h2⟩, h3⟩
    refine ⟨?_, ?_, ?_⟩
    · intro sv hsv; subst hsv; simpa using h1
    · intro pv hpv; subst hpv; simpa using h2
    · intro cv hcv hne
      subst hcv
      have h3' : (if (cv == "") = true then true else t.category == some cv) = true := h3
      rw [if_neg (by simpa using hne)] at h3'
      simpa using h3'
  · rintro ⟨h1, h2, h3⟩
    refine ⟨⟨?_, ?_⟩, ?_⟩
    · cases s with
      | none => rfl
      | some sv => simpa using h1 sv rfl
    · cases p with
      | none => rfl
      | some pv => simpa using h2 pv rfl
    · cases c with
      | none => rfl
      | some cv =>
        show (if (cv == "") = true then true else t.category == some cv) = true
        by_cases hne : cv = ""
        · simp [hne]
        · rw [if_neg (by simpa using hne)]
          simpa using h3 cv rfl hne

theorem createdDesc_trans : ∀ a b c : Task,
    createdDesc a b = true → createdDesc b c = true → createdDesc a c = true := by
  intro a b c hab hbc
  simp only [createdDesc, decide_eq_true_eq] at *
  exact Nat.le_trans hbc hab

theorem createdDesc_total : ∀ a b : Task, (createdDesc a b || createdDesc b a) = true := by
  intro a b
  rw [createdDesc, createdDesc]
  rcases Nat.le_total a.created_at b.created_at with h | h <;> simp [h]

/-- C3 counterexample: the claim's exact-match reading fails for a category
filter supplied as the empty string — a task whose stored category is "x"
(not "") is still returned when `category=""` is supplied, because the
handler drops a falsy category from the filter document. -/
theorem get_tasks_exact_match_counterexample :
    ({ id := "a", title := "x", category := some "x", created_at := 0, updated_at := 0 } : Task)
      ∈ get_tasks [{ id := "a", title := "x", category := some "x", created_at := 0, updated_at := 0 }] none none (some "") ∧
    ({ id := "a", title := "x", category := some "x", created_at := 0, updated_at := 0 } : Task).category ≠ some "" := by
  constructor
  · rw [get_tasks, List.take_of_length_le (by rw [List.length_mergeSort]; decide)]
    exact List.mem_mergeSort.mpr (by decide)
  · decide

/-- C3 (amended): every returned task is a stored task matching all supplied
filters — except that a category filter equal to the empty string is ignored;
at most 1000 tasks are returned, ordered by `created_at` descending; when the
collection is within the cap, every matching stored task is returned; and the
result is the empty list when nothing matches. -/
theorem get_tasks_contract (db : DB) (s : Option TaskStatus) (p : Option TaskPriority)
    (c : Option String) :
    (∀ t ∈ get_tasks db s p c, t ∈ db ∧ specMatches s p c t) ∧
    (get_tasks db s p c).length ≤ 1000 ∧
    (get_tasks db s p c).Pairwise (fun a b => b.created_at ≤ a.created_at) ∧
    (db.length ≤ 1000 → ∀ t ∈ db, specMatches s p c t → t ∈ get_tasks db s p c) ∧
    ((∀ t ∈ db, ¬ specMatches s p c t) → get_tasks db s p c = []) := by
  refine ⟨?_, ?_, ?_, ?_, ?_⟩
  · intro t ht
    have h1 : t ∈ (db.filter (taskFilterPred s p c)).mergeSort createdDesc :=
      List.mem_of_mem_take ht
    have h2 := List.mem_filter.mp (List.mem_mergeSort.mp h1)
    exact ⟨h2.1, (taskFilterPred_iff_specMatches s p c t).mp h2.2⟩
  · exact List.length_take_le _ _
  · have hs := List.sorted_mergeSort createdDesc_trans createdDesc_total
      (db.filter (taskFilterPred s p c))
    have htake := List.Pairwise.sublist (List.take_sublist 1000 _) hs
    exact htake.imp fun h => by simpa [createdDesc] using h
  · intro hlen t ht hm
    have hp : taskFilterPred s p c t = true := (taskFilterPred_iff_specMatches s p c t).mpr hm
    have hms : t ∈ (db.filter (taskFilterPred s p c)).mergeSort createdDesc :=
      List.mem_mergeSort.mpr (List.mem_filter.mpr ⟨ht, hp⟩)
    have hlen2 : ((db.filter (taskFilterPred s p c)).mergeSort createdDesc).length ≤ 1000 := by
      rw [List.length_mergeSort]
      exact le_trans (List.length_filter_le _ _) hlen
    rw [get_tasks, List.take_of_length_le hlen2]
    exact hms
  · intro hall
    have hnil : db.filter (taskFilterPred s p c) = [] := by
      rw [List.filter_eq_nil_iff]
      intro a ha hpa
      exact hall a ha ((taskFilterPred_iff_specMatches s p c a).mp hpa)
    rw [get_tasks, hnil, List.mergeSort_nil]
    rfl

/-- C3 witness: a stored To-Do task is returned by `list(status=To Do)`, and
`list(status=Done)` over the same collection is empty. -/
theorem get_tasks_contract_witness :
    ({ id := "a", title := "x", created_at := 0, updated_at := 0 } : Task)
      ∈ get_tasks [{ id := "a", title := "x", created_at := 0, updated_at := 0 }]
          (some .todo) none none ∧
    get_tasks [{ id := "a", title := "x", created_at := 0, updated_at := 0 }]
        (some .done) none none = [] :=
  ⟨(get_tasks_contract [{ id := "a", title := "x", created_at := 0, updated_at := 0 }]
      (some .todo) none none).2.2.2.1 (by decide)
      { id := "a", title := "x", created_at := 0, updated_at := 0 }
      (List.mem_singleton.mpr rfl)
      ⟨fun sv h => by cases h; rfl, fun pv h => by simp at h, fun cv h => by simp at h⟩,
   (get_tasks_contract [{ id := "a", title := "x", created_at := 0, updated_at := 0 }]
      (some .done) none none).2.2.2.2
      (fun t ht hm => by
        have he : t = { id := "a", title := "x", created_at := 0, updated_at := 0 } :=
          List.mem_singleton.mp ht
        subst he
        exact absurd (hm.1 .done rfl) (by decide))⟩

/-- C5: `updateSubtask(taskId, subtaskId, completed)` fails with NotFound
(404) when the task id is absent, and also fails with NotFound (404) —
leaving the collection untouched — when the task exists but holds no subtask
with the given id; on success (with unique task ids) the returned task is a
stored task whose matching subtask got its `completed` flag set, with every
other subtask unchanged, `updated_at` refreshed, and all other fields kept. -/
theorem update_subtask_contract (db : DB) (now : Nat) (tid sid : String) (b : Bool) :
    ((∀ t ∈ db, t.id ≠ tid) →
      update_subtask db now tid sid b = .error ⟨404, "Task not found"⟩) ∧
    ((∃ t ∈ db, t.id = tid) → (∀ t ∈ db, t.id = tid → ∀ s ∈ t.subtasks, s.id ≠ sid) →
      (update_subtask db now tid sid b = .error ⟨404, "Subtask not found"⟩ ∧
       (updateFirst db (fun t => t.id == tid && t.subtasks.any (fun s => s.id == sid))
          (fun t => { t with subtasks := setSubtaskCompleted t.subtasks sid b,
                             updated_at := now })).1 = db)) ∧
    (idsNodup db → ∀ db' t, update_subtask db now tid sid b = .ok (db', t) →
      ∃ t0 pre s0 post, t0 ∈ db ∧ t0.id = tid ∧
        t0.subtasks = pre ++ s0 :: post ∧ s0.id = sid ∧ (∀ x ∈ pre, x.id ≠ sid) ∧
        t = { t0 with subtasks := pre ++ { s0 with completed := b } :: post,
                      updated_at := now }) := by
  refine ⟨?_, ?_, ?_⟩
  · intro hno
    have hf : findOneById db tid = none := by
      rw [findOneById, List.find?_eq_none]
      intro x hx
      simpa using hno x hx
    simp [update_subtask, hf]
  · rintro ⟨t1, ht1, hid1⟩ hnosub
    have hpnone : db.find?
        (fun x => x.id == tid && x.subtasks.any (fun s => s.id == sid)) = none := by
      rw [List.find?_eq_none]
      intro x hx hcontra
      rw [Bool.and_eq_true] at hcontra
      obtain ⟨hxid, hany⟩ := hcontra
      obtain ⟨s, hs, hsid⟩ := List.any_eq_true.mp hany
      exact hnosub x hx (by simpa using hxid) s hs (by simpa using hsid)
    have hf1 : ∃ t1', findOneById db tid = some t1' := by
      cases hf : findOneById db tid with
      | none =>
        rw [findOneById, List.find?_eq_none] at hf
        exact absurd (by simpa using hid1) (by simpa using hf t1 ht1)
      | some t1' => exact ⟨t1', rfl⟩
    obtain ⟨t1', hf⟩ := hf1
    constructor
    · rw [update_subtask, hf]
      simp only
      rw [updateFirst_of_find?_eq_none hpnone]
      rfl
    · rw [updateFirst_of_find?_eq_none hpnone]
  · intro hnd db' t hok
    obtain ⟨t0, l1, l2, hdb, hrest, hid, hany, hdb', ht⟩ := update_subtask_eq_ok hnd hok
    obtain ⟨s1, hs1⟩ : ∃ s1, t0.subtasks.find? (fun s => s.id == sid) = some s1 := by
      obtain ⟨s, hs, hsid⟩ := List.any_eq_true.mp hany
      cases hfs : t0.subtasks.find? (fun s => s.id == sid) with
      | none =>
        rw [List.find?_eq_none] at hfs
        exact absurd hsid (hfs s hs)
      | some s1 => exact ⟨s1, rfl⟩
    obtain ⟨pre, post, hsubs, hpre, hs1id, hset⟩ := setSubtaskCompleted_of_find?_some b hs1
    refine ⟨t0, pre, s1, post, ?_, hid, hsubs, hs1id, hpre, ?_⟩
    · rw [hdb]
      exact List.mem_append.mpr (Or.inr (List.mem_cons_self ..))
    · rw [ht, hset]

/-- C5 witness: a missing task id yields 404 "Task not found"; a task without
the subtask yields 404 "Subtask not found"; completing the sole subtask of a
stored task succeeds and rewrites exactly that subtask. -/
theorem update_subtask_contract_witness :
    update_subtask [] 1 "a" "s" true = .error ⟨404, "Task not found"⟩ ∧
    update_subtask [{ id := "a", title := "x", created_at := 0, updated_at := 0 }]
        1 "a" "s" true = .error ⟨404, "Subtask not found"⟩ ∧
    (∃ t0 pre s0 post,
      t0 ∈ ([{ id := "a", title := "x", subtasks := [{ id := "s", text := "t" }], created_at := 0, updated_at := 0 }] : DB) ∧
      t0.id = "a" ∧ t0.subtasks = pre ++ s0 :: post ∧ s0.id = "s" ∧
      (∀ x ∈ pre, x.id ≠ "s") ∧
      ({ id := "a", title := "x", subtasks := [{ id := "s", text := "t", completed := true }], created_at := 0, updated_at := 1 } : Task)
        = { t0 with subtasks := pre ++ { s0 with completed := true } :: post,
                    updated_at := 1 }) :=
  ⟨(update_subtask_contract [] 1 "a" "s" true).1 (by decide),
   ((update_subtask_contract [{ id := "a", title := "x", created_at := 0, updated_at := 0 }] 1 "a" "s" true).2.1 ⟨_, List.mem_singleton.mpr rfl, rfl⟩ (by decide)).1,
   (update_subtask_contract [{ id := "a", title := "x", subtasks := [{ id := "s", text := "t" }], created_at := 0, updated_at := 0 }] 1 "a" "s" true).2.2 (by decide)
     [{ id := "a", title := "x", subtasks := [{ id := "s", text := "t", completed := true }], created_at := 0, updated_at := 1 }]
     { id := "a", title := "x", subtasks := [{ id := "s", text := "t", completed := true }], created_at := 0, updated_at := 1 }
     (by decide)⟩

/-- C6: the dashboard's `overdue_count` equals the number of stored tasks
whose `due_date` is strictly before `now` and whose status is not Done; a
task with a past due date and status To Do contributes one to the count, and
rewriting its status to Done (as `update(id, {status: Done})` does) removes
that contribution. -/
theorem dashboard_overdue_contract (db : DB) (now : Nat) :
    ((get_dashboard_stats db now).overdue_count =
      (db.filter (fun t => t.due_date.any (fun d => decide (d < now)) &&
                           !(decide (t.status = .done)))).length) ∧
    (∀ (l1 l2 : List Task) (t : Task) (d now2 : Nat),
      t.due_date = some d → d < now → t.status = .todo →
      ((get_dashboard_stats (l1 ++ t :: l2) now).overdue_count
         = (get_dashboard_stats (l1 ++ l2) now).overdue_count + 1 ∧
       (get_dashboard_stats
           (l1 ++ { t with status := .done, updated_at := now2 } :: l2) now).overdue_count
         = (get_dashboard_stats (l1 ++ l2) now).overdue_count)) := by
  constructor
  · show countDocuments db (overduePred now) = _
    rw [countDocuments]
    congr 1
    apply List.filter_congr
    intro t _
    cases hdd : t.due_date <;> cases hst : t.status <;>
      simp [overduePred, hdd, hst]
  · intro l1 l2 t d now2 hd hlt hst
    have hp1 : overduePred now t = true := by
      simp [overduePred, hd, hlt, hst]
    have hp2 : overduePred now { t with status := .done, updated_at := now2 } = false := by
      simp [overduePred]
    constructor
    · show countDocuments _ (overduePred now) = countDocuments _ (overduePred now) + 1
      simp only [countDocuments, List.filter_append, List.filter_cons, hp1, if_pos,
        List.length_append, List.length_cons]
      omega
    · show countDocuments _ (overduePred now) = countDocuments _ (overduePred now)
      simp only [countDocuments, List.filter_append, List.filter_cons, hp2,
        Bool.false_eq_true, if_neg]
      simp

/-- C6 witness: one task due at time 0 with status To Do is counted at time 1,
and its Done rewrite is not. -/
theorem dashboard_overdue_contract_witness :
    (get_dashboard_stats [{ id := "a", title := "x", due_date := some 0, created_at := 0, updated_at := 0 }] 1).overdue_count
      = (get_dashboard_stats [] 1).overdue_count + 1 ∧
    (get_dashboard_stats [{ id := "a", title := "x", due_date := some 0, status := .done, created_at := 0, updated_at := 5 }] 1).overdue_count
      = (get_dashboard_stats [] 1).overdue_count :=
  (dashboard_overdue_contract [] 1).2 [] []
    { id := "a", title := "x", due_date := some 0, created_at := 0, updated_at := 0 }
    0 5 rfl (by decide) rfl

/-- C8: `created_at ≤ updated_at` holds after creation and is preserved by
`update` and `updateSubtask`: assuming the invariant and that no stored
`created_at` lies in the clock's future, every successful mutation yields a
collection still satisfying the invariant, leaves every `created_at`
untouched, and stamps the returned task with `updated_at = now`. -/
theorem timestamps_invariant (db : DB) (now : Nat) :
    (∀ genId inp ack db' t, create_task db genId now inp ack = .ok (db', t) →
      Inv db → Inv db') ∧
    (∀ tid tu db' t, update_task db now tid tu = .ok (db', t) →
      Inv db → ClockBound db now →
      (Inv db' ∧ db'.map Task.created_at = db.map Task.created_at ∧
       t.updated_at = now ∧ t.created_at ≤ t.updated_at)) ∧
    (∀ tid sid b db' t, idsNodup db → update_subtask db now tid sid b = .ok (db', t) →
      Inv db → ClockBound db now →
      (Inv db' ∧ db'.map Task.created_at = db.map Task.created_at ∧
       t.updated_at = now ∧ t.created_at ≤ t.updated_at)) := by
  refine ⟨?_, ?_, ?_⟩
  · intro genId inp ack db' t hok hinv
    cases ack with
    | false => simp [create_task] at hok
    | true =>
      simp only [create_task, if_true, Except.ok.injEq, Prod.mk.injEq] at hok
      obtain ⟨hdb', ht⟩ := hok
      subst hdb'
      intro x hx
      rcases List.mem_append.mp hx with hx | hx
      · exact hinv x hx
      · rw [List.mem_singleton.mp hx]
  · intro tid tu db' t hok hinv hclock
    obtain ⟨t0, l1, l2, hdb, hl1, hid, hne, hdb', ht⟩ := update_task_eq_ok hok
    have ht0mem : t0 ∈ db := by
      rw [hdb]; exact List.mem_append.mpr (Or.inr (List.mem_cons_self ..))
    refine ⟨?_, ?_, ?_, ?_⟩
    · intro x hx
      rw [hdb'] at hx
      rcases List.mem_append.mp hx with hx | hx
      · exact hinv x (by rw [hdb]; exact List.mem_append.mpr (Or.inl hx))
      · rcases List.mem_cons.mp hx with hx | hx
        · rw [hx]
          show (applyUpdate tu now t0).created_at ≤ (applyUpdate tu now t0).updated_at
          have : (applyUpdate tu now t0).created_at = t0.created_at := rfl
          rw [this]
          exact hclock t0 ht0mem
        · exact hinv x (by
            rw [hdb]
            exact List.mem_append.mpr (Or.inr (List.mem_cons_of_mem _ hx)))
    · rw [hdb', hdb]
      simp [applyUpdate]
    · rw [ht]
      rfl
    · rw [ht]
      show t0.created_at ≤ now
      exact hclock t0 ht0mem
  · intro tid sid b db' t hnd hok hinv hclock
    obtain ⟨t0, l1, l2, hdb, hrest, hid, hany, hdb', ht⟩ := update_subtask_eq_ok hnd hok
    have ht0mem : t0 ∈ db := by
      rw [hdb]; exact List.mem_append.mpr (Or.inr (List.mem_cons_self ..))
    refine ⟨?_, ?_, ?_, ?_⟩
    · intro x hx
      rw [hdb'] at hx
      rcases List.mem_append.mp hx with hx | hx
      · exact hinv x (by rw [hdb]; exact List.mem_append.mpr (Or.inl hx))
      · rcases List.mem_cons.mp hx with hx | hx
        · rw [hx]
          exact hclock t0 ht0mem
        · exact hinv x (by
            rw [hdb]
            exact List.mem_append.mpr (Or.inr (List.mem_cons_of_mem _ hx)))
    · rw [hdb', hdb]
      simp
    · rw [ht]
    · rw [ht]
      show t0.created_at ≤ now
      exact hclock t0 ht0mem

/-- C8 witness: creating into an empty store at time 5 keeps the invariant,
and an empty-partial update at time 7 of a task created at time 5 keeps the
invariant, preserves `created_at`, and stamps `updated_at = 7`. -/
theorem timestamps_invariant_witness :
    Inv [{ id := "a", title := "x", created_at := 5, updated_at := 5 }] ∧
    (Inv [applyUpdate {} 7 { id := "a", title := "x", created_at := 5, updated_at := 5 }] ∧
      [applyUpdate {} 7 { id := "a", title := "x", created_at := 5, updated_at := 5 }].map Task.created_at
        = [{ id := "a", title := "x", created_at := 5, updated_at := 5 }].map Task.created_at ∧
      (applyUpdate {} 7 { id := "a", title := "x", created_at := 5, updated_at := 5 }).updated_at = 7 ∧
      (applyUpdate {} 7 { id := "a", title := "x", created_at := 5, updated_at := 5 }).created_at
        ≤ (applyUpdate {} 7 { id := "a", title := "x", created_at := 5, updated_at := 5 }).updated_at) :=
  ⟨(timestamps_invariant [] 5).1 "a" { title := "x" } true
      [{ id := "a", title := "x", created_at := 5, updated_at := 5 }]
      { id := "a", title := "x", created_at := 5, updated_at := 5 }
      (by decide) (fun x hx => absurd hx (List.not_mem_nil x)),
   (timestamps_invariant [{ id := "a", title := "x", created_at := 5, updated_at := 5 }] 7).2.1
      "a" {}
      [applyUpdate {} 7 { id := "a", title := "x", created_at := 5, updated_at := 5 }]
      (applyUpdate {} 7 { id := "a", title := "x", created_at := 5, updated_at := 5 })
      (by decide)
      (by intro x hx; rw [List.mem_singleton.mp hx])
      (by intro x hx; rw [List.mem_singleton.mp hx]; decide)⟩

/-- C9: a field supplied as JSON `null` in the update body parses exactly as
an absent field (for every one of the seven updatable fields), the resulting
`update` call behaves identically, and consequently a stored `due_date` can
never be cleared back to null by `update`. -/
theorem update_null_equals_absent (db : DB) (now : Nat) (tid : String) (j : TaskUpdateJson) :
    TaskUpdateJson.parse { j with title := some none }
      = TaskUpdateJson.parse { j with title := none } ∧
    TaskUpdateJson.parse { j with description := some none }
      = TaskUpdateJson.parse { j with description := none } ∧
    TaskUpdateJson.parse { j with due_date := some none }
      = TaskUpdateJson.parse { j with due_date := none } ∧
    TaskUpdateJson.parse { j with priority := some none }
      = TaskUpdateJson.parse { j with priority := none } ∧
    TaskUpdateJson.parse { j with category := some none }
      = TaskUpdateJson.parse { j with category := none } ∧
    TaskUpdateJson.parse { j with status := some none }
      = TaskUpdateJson.parse { j with status := none } ∧
    TaskUpdateJson.parse { j with subtasks := some none }
      = TaskUpdateJson.parse { j with subtasks := none } ∧
    update_task db now tid (TaskUpdateJson.parse { j with due_date := some none })
      = update_task db now tid (TaskUpdateJson.parse { j with due_date := none }) ∧
    (∀ t0 db' t, findOneById db tid = some t0 →
      update_task db now tid (TaskUpdateJson.parse j) = .ok (db', t) →
      t0.due_date.isSome = true → t.due_date.isSome = true) := by
  refine ⟨rfl, rfl, rfl, rfl, rfl, rfl, rfl, rfl, ?_⟩
  intro t0 db' t h0 hok hsome
  obtain ⟨t0', l1, l2, hdb, hl1, hid, hne, hdb', ht⟩ := update_task_eq_ok hok
  have ht00 : t0 = t0' := by
    rw [findOneById, hdb] at h0
    rw [find?_middle (fun x hx => by simpa using hl1 x hx) (by simpa using hid)] at h0
    exact (Option.some_inj.mp h0).symm
  subst ht00
  subst ht
  show (match (TaskUpdateJson.parse j).due_date with
        | some d => some d
        | none => t0.due_date).isSome = true
  cases (TaskUpdateJson.parse j).due_date with
  | none => exact hsome
  | some d => rfl

/-- C9 witness: an empty JSON body (whose parse leaves `due_date` absent)
updating a task stored with `due_date = some 3` succeeds without clearing
the due date. -/
theorem update_null_equals_absent_witness :
    (applyUpdate (TaskUpdateJson.parse {}) 1
      { id := "a", title := "x", due_date := some 3, created_at := 0, updated_at := 0 }).due_date.isSome
      = true :=
  (update_null_equals_absent
      [{ id := "a", title := "x", due_date := some 3, created_at := 0, updated_at := 0 }]
      1 "a" {}).2.2.2.2.2.2.2.2
    { id := "a", title := "x", due_date := some 3, created_at := 0, updated_at := 0 }
    [applyUpdate (TaskUpdateJson.parse {}) 1
      { id := "a", title := "x", due_date := some 3, created_at := 0, updated_at := 0 }]
    (applyUpdate (TaskUpdateJson.parse {}) 1
      { id := "a", title := "x", due_date := some 3, created_at := 0, updated_at := 0 })
    (by decide) (by decide) (by decide)

/-- C10: a category filter supplied as the empty string leaves the filter
document without a category clause, so `list` behaves exactly as with no
category filter at all, and the empty-string category filter matches every
stored task (rather than only those whose stored category is ""). -/
theorem get_tasks_empty_category (db : DB) (s : Option TaskStatus) (p : Option TaskPriority) :
    get_tasks db s p (some "") = get_tasks db s p none ∧
    (∀ t ∈ db, taskFilterPred s p (some "") t = taskFilterPred s p none t) ∧
    (∀ t ∈ db, taskFilterPred none none (some "") t = true) := by
  have hpt : ∀ t, taskFilterPred s p (some "") t = taskFilterPred s p none t := by
    intro t
    simp [taskFilterPred]
  refine ⟨?_, fun t _ => hpt t, fun t _ => by simp [taskFilterPred]⟩
  rw [get_tasks, get_tasks, List.filter_congr (fun t _ => hpt t)]

/-- C10 witness: on a one-task collection whose task has category "x", the
empty-string category filter matches the task and the two `list` calls
coincide. -/
theorem get_tasks_empty_category_witness :
    get_tasks [{ id := "a", title := "x", category := some "x", created_at := 0, updated_at := 0 }]
        none none (some "")
      = get_tasks [{ id := "a", title := "x", category := some "x", created_at := 0, updated_at := 0 }]
        none none none ∧
    taskFilterPred none none (some "")
      { id := "a", title := "x", category := some "x", created_at := 0, updated_at := 0 } = true :=
  ⟨(get_tasks_empty_category
      [{ id := "a", title := "x", category := some "x", created_at := 0, updated_at := 0 }]
      none none).1,
   (get_tasks_empty_category
      [{ id := "a", title := "x", category := some "x", created_at := 0, updated_at := 0 }]
      none none).2.2
    { id := "a", title := "x", category := some "x", created_at := 0, updated_at := 0 }
    (List.mem_singleton.mpr rfl)⟩

end TaskService
